import Mathlib

/-!
Shallow embedding of `tf_agents/environments/py_to_dm_wrapper.py`:
an adapter that converts a TF-Agents Python environment into a
DeepMind-style (`dm_env`) environment.  The module consists of three
pure conversion functions (`_convert_timestep`, `_convert_spec`,
`_convert_action_spec`) and one wrapper class (`PyToDMWrapper`).

Machine arrays are modelled by their shape (list of dimension sizes)
and flat data (list of rationals); `np.squeeze` removes every
singleton dimension from the shape and leaves the flat data alone.
Fallible code returns `Except String`.
-/

namespace PyToDm

/-- Element types of array specs.  Stands for the numpy dtypes that occur
in TF-Agents specs; only the integer/non-integer distinction matters to
the code under verification. -/
inductive DType where
  | int32
  | int64
  | uint8
  | float32
  | float64
deriving DecidableEq, Repr

/-- `np.issubdtype(dtype, np.integer)` for the modelled dtypes. -/
def DType.isInteger : DType → Bool
  | .int32 => true
  | .int64 => true
  | .uint8 => true
  | .float32 => false
  | .float64 => false

/-- A numpy ndarray, modelled by its shape and its flat data.
A scalar has shape `[]` and a single data element. -/
structure NDArray where
  shape : List Nat
  data : List ℚ
deriving DecidableEq, Repr

/-- A scalar ndarray (the Python floats `0.0` and `1.0` that
`_convert_timestep` substitutes on first steps are modelled as scalar
arrays). -/
def NDArray.scalar (x : ℚ) : NDArray := ⟨[], [x]⟩

/-- `np.squeeze`: removes every dimension of size 1 from the shape; the
flat data is unchanged. -/
def NDArray.squeeze (a : NDArray) : NDArray :=
  ⟨a.shape.filter (fun d => d != 1), a.data⟩

/-- Modelled from the spec: the source-convention timestep
(`tf_agents.trajectories.time_step.TimeStep`, not under `src/`) is a
tuple of a step-phase indicator (first/mid/last), reward, discount and
observation; the phase indicator is consumed by the converter through
the three predicates `is_first`, `is_last`, `is_mid`.  The spec demands
that exactly one of them hold for a conforming source environment and
calls any other condition an input error, so the three predicates are
modelled as independent booleans. -/
structure SrcTimeStep (α : Type) where
  is_first : Bool
  is_last : Bool
  is_mid : Bool
  reward : NDArray
  discount : NDArray
  observation : α
deriving DecidableEq, Repr

/-- The target-convention step-type enumeration (`dm_env.StepType`). -/
inductive DmStepType where
  | FIRST
  | MID
  | LAST
deriving DecidableEq, Repr

/-- The target-convention timestep (`dm_env.TimeStep`). -/
structure DmTimeStep (α : Type) where
  step_type : DmStepType
  reward : NDArray
  discount : NDArray
  observation : α
deriving DecidableEq, Repr

/-- The step-type classification performed by the `if/elif/elif/else`
chain at the top of `_convert_timestep`: first test `is_first`, then
`is_last`, then `is_mid`; if none holds raise `ValueError`. -/
def classify_step_type (t : SrcTimeStep α) : Except String DmStepType :=
  if t.is_first then .ok .FIRST
  else if t.is_last then .ok .LAST
  else if t.is_mid then .ok .MID
  else .error "Invalid Step type"

/-- `_convert_timestep`: classify the phase, then build the target
timestep.  Reward is `0.0` on a first step and `np.squeeze` of the
source reward otherwise; discount is `1.0` on a first step and
`np.squeeze` of the source discount otherwise; the observation is
passed through unchanged. -/
def convert_timestep (t : SrcTimeStep α) : Except String (DmTimeStep α) :=
  (classify_step_type t).map fun st =>
    { step_type := st
      reward := if t.is_first then NDArray.scalar 0 else t.reward.squeeze
      discount := if t.is_first then NDArray.scalar 1 else t.discount.squeeze
      observation := t.observation }

/-- A source-convention leaf array spec
(`tf_agents.specs.array_spec.ArraySpec` / `BoundedArraySpec`): shape,
element type, optional name, and for the bounded variant an inclusive
minimum and maximum. -/
inductive TfaSpec where
  | array (shape : List Nat) (dtype : DType) (name : Option String)
  | bounded (shape : List Nat) (dtype : DType) (name : Option String)
      (minimum maximum : ℚ)
deriving DecidableEq, Repr

/-- A target-convention leaf array spec (`dm_env.specs.Array` /
`BoundedArray` / `DiscreteArray`). -/
inductive DmSpec where
  | array (shape : List Nat) (dtype : DType) (name : Option String)
  | bounded (shape : List Nat) (dtype : DType) (name : Option String)
      (minimum maximum : ℚ)
  | discrete (num_values : ℚ) (dtype : DType) (name : Option String)
deriving DecidableEq, Repr

/-- Whether a target spec is the discrete-action variant. -/
def DmSpec.isDiscrete : DmSpec → Bool
  | .discrete .. => true
  | _ => false

/-- `_convert_spec`: a bounded source spec becomes a `BoundedArray`
carrying shape, dtype, minimum, maximum and name; any other spec
becomes a plain `Array` carrying shape, dtype and name. -/
def convert_spec : TfaSpec → DmSpec
  | .bounded sh dt nm mn mx => .bounded sh dt nm mn mx
  | .array sh dt nm => .array sh dt nm

/-- `_convert_action_spec`: if the spec is a `BoundedArraySpec` with
empty shape, integer dtype and minimum equal to 0, emit a
`DiscreteArray` with `num_values = maximum - minimum + 1`, same dtype
and name; otherwise fall through to `_convert_spec`. -/
def convert_action_spec (spec : TfaSpec) : DmSpec :=
  match spec with
  | .bounded sh dt nm mn mx =>
      if sh = [] ∧ dt.isInteger = true ∧ mn = 0 then
        .discrete (mx - mn + 1) dt nm
      else
        convert_spec (.bounded sh dt nm mn mx)
  | .array sh dt nm => convert_spec (.array sh dt nm)

mutual

/-- A tree-structured spec as traversed by `tree.map_structure`: a leaf
spec, a mapping with string keys in order, or a sequence. -/
inductive Tree (α : Type) where
  | leaf : α → Tree α
  | dict : Entries α → Tree α
  | seq : TreeSeq α → Tree α

/-- The ordered key/subtree entries of a mapping node. -/
inductive Entries (α : Type) where
  | nil : Entries α
  | cons : String → Tree α → Entries α → Entries α

/-- The ordered subtrees of a sequence node. -/
inductive TreeSeq (α : Type) where
  | nil : TreeSeq α
  | cons : Tree α → TreeSeq α → TreeSeq α

end

mutual

/-- `tree.map_structure`: apply a leaf transform to every leaf,
preserving container structure, keys and ordering. -/
def Tree.map (f : α → β) : Tree α → Tree β
  | .leaf a => .leaf (f a)
  | .dict es => .dict (Entries.map f es)
  | .seq ts => .seq (TreeSeq.map f ts)

/-- `Tree.map` on mapping entries. -/
def Entries.map (f : α → β) : Entries α → Entries β
  | .nil => .nil
  | .cons k t rest => .cons k (Tree.map f t) (Entries.map f rest)

/-- `Tree.map` on sequence elements. -/
def TreeSeq.map (f : α → β) : TreeSeq α → TreeSeq β
  | .nil => .nil
  | .cons t rest => .cons (Tree.map f t) (TreeSeq.map f rest)

end

mutual

/-- The container skeleton of a tree: container kinds, keys and
ordering, with leaf contents erased. -/
def Tree.shape : Tree α → Tree Unit
  | .leaf _ => .leaf ()
  | .dict es => .dict (Entries.shape es)
  | .seq ts => .seq (TreeSeq.shape ts)

/-- `Tree.shape` on mapping entries. -/
def Entries.shape : Entries α → Entries Unit
  | .nil => .nil
  | .cons k t rest => .cons k (Tree.shape t) (Entries.shape rest)

/-- `Tree.shape` on sequence elements. -/
def TreeSeq.shape : TreeSeq α → TreeSeq Unit
  | .nil => .nil
  | .cons t rest => .cons (Tree.shape t) (TreeSeq.shape rest)

end

mutual

/-- The leaves of a tree, left to right. -/
def Tree.leaves : Tree α → List α
  | .leaf a => [a]
  | .dict es => Entries.leaves es
  | .seq ts => TreeSeq.leaves ts

/-- `Tree.leaves` on mapping entries. -/
def Entries.leaves : Entries α → List α
  | .nil => []
  | .cons _ t rest => Tree.leaves t ++ Entries.leaves rest

/-- `Tree.leaves` on sequence elements. -/
def TreeSeq.leaves : TreeSeq α → List α
  | .nil => []
  | .cons t rest => Tree.leaves t ++ TreeSeq.leaves rest

end

/-- Modelled from the spec: the wrapped source-convention environment
interface (`tf_agents.environments.py_environment.PyEnvironment`, not
under `src/`) consumed by the adapter: a `batched` flag, the three spec
methods, and `reset`/`step` which mutate internal episode state and
return a source timestep.  The internal episode state is abstracted as
a natural number, and each consumed method may depend on that state. -/
structure PyEnv where
  batched : Bool
  state : Nat
  obs_spec_at : Nat → Tree TfaSpec
  act_spec_at : Nat → Tree TfaSpec
  disc_spec_at : Nat → Tree TfaSpec
  step_at : Nat → Nat → Nat × SrcTimeStep NDArray
  reset_at : Nat → Nat × SrcTimeStep NDArray

/-- The adapter object: the wrapped environment plus the three spec
caches written once at construction. -/
structure PyToDMWrapper where
  environment : PyEnv
  observation_spec_cache : Tree DmSpec
  action_spec_cache : Tree DmSpec
  discount_spec_cache : Tree DmSpec

/-- `PyToDMWrapper.__init__`: store the environment; raise
`NotImplementedError` if it is batched, before any spec is computed;
otherwise convert and cache the observation spec (via `_convert_spec`),
the action spec (via `_convert_action_spec`) and the discount spec
(via `_convert_spec`), each obtained from the wrapped environment at
construction time. -/
def PyToDMWrapper.make (env : PyEnv) : Except String PyToDMWrapper :=
  if env.batched then
    .error "Batched environments cannot be converted to dm environments."
  else
    .ok { environment := env
          observation_spec_cache := Tree.map convert_spec (env.obs_spec_at env.state)
          action_spec_cache := Tree.map convert_action_spec (env.act_spec_at env.state)
          discount_spec_cache := Tree.map convert_spec (env.disc_spec_at env.state) }

/-- `PyToDMWrapper.observation_spec`: returns the cached converted
observation spec; the wrapped environment is not consulted. -/
def PyToDMWrapper.observation_spec (w : PyToDMWrapper) : Tree DmSpec :=
  w.observation_spec_cache

/-- `PyToDMWrapper.action_spec`: returns the cached converted action
spec; the wrapped environment is not consulted. -/
def PyToDMWrapper.action_spec (w : PyToDMWrapper) : Tree DmSpec :=
  w.action_spec_cache

/-- `PyToDMWrapper.discount_spec`: returns the cached converted
discount spec; the wrapped environment is not consulted. -/
def PyToDMWrapper.discount_spec (w : PyToDMWrapper) : Tree DmSpec :=
  w.discount_spec_cache

/-- `PyToDMWrapper.step`: delegate to the wrapped environment's `step`
(advancing its internal state), then convert the resulting timestep
with `_convert_timestep`. -/
def PyToDMWrapper.step (w : PyToDMWrapper) (action : Nat) :
    PyToDMWrapper × Except String (DmTimeStep NDArray) :=
  let p := w.environment.step_at w.environment.state action
  ({ w with environment := { w.environment with state := p.1 } },
    convert_timestep p.2)

/-- `PyToDMWrapper.reset`: delegate to the wrapped environment's
`reset` (advancing its internal state), then convert the resulting
timestep with `_convert_timestep`. -/
def PyToDMWrapper.reset (w : PyToDMWrapper) :
    PyToDMWrapper × Except String (DmTimeStep NDArray) :=
  let p := w.environment.reset_at w.environment.state
  ({ w with environment := { w.environment with state := p.1 } },
    convert_timestep p.2)

/-- Run a sequence of `step` calls on the adapter, keeping only the
adapter object. -/
def PyToDMWrapper.stepMany (w : PyToDMWrapper) : List Nat → PyToDMWrapper
  | [] => w
  | a :: rest => PyToDMWrapper.stepMany (PyToDMWrapper.step w a).1 rest

/-! ## Helper lemmas -/

/-- Squeezing an array none of whose dimensions is a singleton leaves
it untouched. -/
theorem NDArray.squeeze_eq_self (a : NDArray) (h : 1 ∉ a.shape) :
    a.squeeze = a := by
  unfold NDArray.squeeze
  cases a with
  | mk shape data =>
    simp only [NDArray.mk.injEq, and_true]
    apply List.filter_eq_self.mpr
    intro d hd
    simp only [bne_iff_ne, ne_eq]
    intro hceq
    exact h (hceq ▸ hd)

/-- Unfolded form of `convert_timestep` on a timestep whose first-step
predicate is true. -/
theorem convert_timestep_of_first {α : Type} (t : SrcTimeStep α)
    (hf : t.is_first = true) :
    convert_timestep t =
      .ok ⟨.FIRST, NDArray.scalar 0, NDArray.scalar 1, t.observation⟩ := by
  simp [convert_timestep, classify_step_type, hf, Except.map]

/-- Unfolded form of `convert_timestep` on a timestep whose first-step
predicate is false but whose last-step predicate is true. -/
theorem convert_timestep_of_last {α : Type} (t : SrcTimeStep α)
    (hf : t.is_first = false) (hl : t.is_last = true) :
    convert_timestep t =
      .ok ⟨.LAST, t.reward.squeeze, t.discount.squeeze, t.observation⟩ := by
  simp [convert_timestep, classify_step_type, hf, hl, Except.map]

/-- Unfolded form of `convert_timestep` on a timestep whose first- and
last-step predicates are false but whose mid-step predicate is true. -/
theorem convert_timestep_of_mid {α : Type} (t : SrcTimeStep α)
    (hf : t.is_first = false) (hl : t.is_last = false) (hm : t.is_mid = true) :
    convert_timestep t =
      .ok ⟨.MID, t.reward.squeeze, t.discount.squeeze, t.observation⟩ := by
  simp [convert_timestep, classify_step_type, hf, hl, hm, Except.map]

/-! ## Claim theorems -/

/-- C1: for every source-convention timestep whose phase is `first`,
the converted timestep has reward `0.0` and discount `1.0`, for every
value of the source timestep's reward and discount fields. -/
theorem C1_first_step_fixed_reward_discount {α : Type} (t : SrcTimeStep α)
    (h : t.is_first = true) :
    convert_timestep t =
      .ok ⟨.FIRST, NDArray.scalar 0, NDArray.scalar 1, t.observation⟩ := by
  simp [convert_timestep, classify_step_type, h, Except.map]

/-- Witness for C1 at a concrete first-phase timestep carrying
non-neutral reward and discount. -/
theorem C1_witness :
    convert_timestep
        (⟨true, false, false, ⟨[2], [5, 7]⟩, ⟨[], [9]⟩, (0 : Nat)⟩ :
          SrcTimeStep Nat) =
      .ok ⟨.FIRST, NDArray.scalar 0, NDArray.scalar 1, (0 : Nat)⟩ :=
  C1_first_step_fixed_reward_discount _ rfl

/-- C3: for every source-convention timestep converted to a `MID` or
`LAST` step, the converted reward and discount are the source values
with every singleton dimension removed from the shape and the flat data
unchanged; a reward or discount with no singleton dimension is left
untouched. -/
theorem C3_mid_last_squeeze {α : Type} (t : SrcTimeStep α) (r : DmTimeStep α)
    (h : convert_timestep t = .ok r)
    (hp : r.step_type = .MID ∨ r.step_type = .LAST) :
    r.reward = t.reward.squeeze ∧ r.discount = t.discount.squeeze ∧
    r.reward.shape = t.reward.shape.filter (fun d => d != 1) ∧
    r.reward.data = t.reward.data ∧
    r.discount.shape = t.discount.shape.filter (fun d => d != 1) ∧
    r.discount.data = t.discount.data ∧
    (1 ∉ t.reward.shape → r.reward = t.reward) ∧
    (1 ∉ t.discount.shape → r.discount = t.discount) := by
  by_cases hf : t.is_first = true
  · rw [convert_timestep_of_first t hf] at h
    cases h
    simp at hp
  · simp only [Bool.not_eq_true] at hf
    have hr : r.reward = t.reward.squeeze ∧ r.discount = t.discount.squeeze := by
      simp only [convert_timestep, classify_step_type, hf] at h
      by_cases hl : t.is_last = true
      · simp [hl, Except.map] at h
        simp [← h]
      · simp only [Bool.not_eq_true] at hl
        by_cases hm : t.is_mid = true
        · simp [hl, hm, Except.map] at h
          simp [← h]
        · simp only [Bool.not_eq_true] at hm
          simp [hl, hm, Except.map] at h
    refine ⟨hr.1, hr.2, ?_, ?_, ?_, ?_, ?_, ?_⟩
    · rw [hr.1]; rfl
    · rw [hr.1]; rfl
    · rw [hr.2]; rfl
    · rw [hr.2]; rfl
    · intro hs; rw [hr.1]; exact NDArray.squeeze_eq_self _ hs
    · intro hs; rw [hr.2]; exact NDArray.squeeze_eq_self _ hs

/-- Witness for C3: a mid-phase timestep whose reward is the
single-element array `[3.5]` converts to a timestep with scalar reward
`3.5`. -/
theorem C3_witness :
    (⟨.MID, ⟨[], [(7 : ℚ)/2]⟩, ⟨[], [1]⟩, (0 : Nat)⟩ : DmTimeStep Nat).reward =
        NDArray.squeeze ⟨[1], [(7 : ℚ)/2]⟩ ∧
    (⟨.MID, ⟨[], [(7 : ℚ)/2]⟩, ⟨[], [1]⟩, (0 : Nat)⟩ : DmTimeStep Nat).discount =
        NDArray.squeeze ⟨[], [1]⟩ := by
  have h := C3_mid_last_squeeze
    (⟨false, false, true, ⟨[1], [(7 : ℚ)/2]⟩, ⟨[], [1]⟩, (0 : Nat)⟩ : SrcTimeStep Nat)
    (⟨.MID, ⟨[], [(7 : ℚ)/2]⟩, ⟨[], [1]⟩, (0 : Nat)⟩ : DmTimeStep Nat)
    (by simp [convert_timestep, classify_step_type, Except.map, NDArray.squeeze])
    (Or.inl rfl)
  exact ⟨h.1, h.2.1⟩

/-- C7: for every source-convention timestep that converts
successfully, regardless of phase, the converted observation is the
source observation unchanged. -/
theorem C7_observation_identity {α : Type} (t : SrcTimeStep α)
    (r : DmTimeStep α) (h : convert_timestep t = .ok r) :
    r.observation = t.observation := by
  cases hc : classify_step_type t with
  | error e => simp [convert_timestep, hc, Except.map] at h
  | ok st =>
      simp [convert_timestep, hc, Except.map] at h
      simp [← h]

/-- Witness for C7 at a concrete last-phase timestep. -/
theorem C7_witness :
    (⟨.LAST, NDArray.scalar 3, NDArray.scalar 0, (42 : Nat)⟩ :
        DmTimeStep Nat).observation = (42 : Nat) :=
  C7_observation_identity
    (⟨false, true, false, ⟨[1], [3]⟩, ⟨[1], [0]⟩, (42 : Nat)⟩ : SrcTimeStep Nat)
    _ (by simp [convert_timestep, classify_step_type, Except.map,
          NDArray.squeeze, NDArray.scalar])

/-- C4 counterexample: a timestep whose phase classification is
ambiguous (both the first-step and the last-step predicates hold) does
NOT raise: `_convert_timestep` returns a converted timestep, so the
claim that an ambiguous classification raises `ValueError` is false. -/
theorem C4_counterexample :
    (⟨true, true, false, NDArray.scalar 5, NDArray.scalar 5, (0 : Nat)⟩ :
        SrcTimeStep Nat).is_first = true ∧
    (⟨true, true, false, NDArray.scalar 5, NDArray.scalar 5, (0 : Nat)⟩ :
        SrcTimeStep Nat).is_last = true ∧
    convert_timestep
        (⟨true, true, false, NDArray.scalar 5, NDArray.scalar 5, (0 : Nat)⟩ :
          SrcTimeStep Nat) =
      .ok ⟨.FIRST, NDArray.scalar 0, NDArray.scalar 1, (0 : Nat)⟩ :=
  ⟨rfl, rfl, rfl⟩

/-- C4 (amended): `_convert_timestep` raises the invalid-input error
exactly when none of the first/mid/last predicates holds; a timestep on
which more than one predicate holds does not raise and is classified by
the earliest true predicate in the order first, last, mid. -/
theorem C4_amended_error_iff_unclassified {α : Type} (t : SrcTimeStep α) :
    ((∃ e, convert_timestep t = .error e) ↔
      t.is_first = false ∧ t.is_last = false ∧ t.is_mid = false) ∧
    (t.is_first = true →
      (convert_timestep t).map (fun r => r.step_type) = .ok .FIRST) ∧
    (t.is_first = false → t.is_last = true →
      (convert_timestep t).map (fun r => r.step_type) = .ok .LAST) ∧
    (t.is_first = false → t.is_last = false → t.is_mid = true →
      (convert_timestep t).map (fun r => r.step_type) = .ok .MID) := by
  refine ⟨⟨fun ⟨e, he⟩ => ?_, fun ⟨hf, hl, hm⟩ => ?_⟩, ?_, ?_, ?_⟩
  · by_cases hf : t.is_first = true
    · rw [convert_timestep_of_first t hf] at he; cases he
    · simp only [Bool.not_eq_true] at hf
      by_cases hl : t.is_last = true
      · rw [convert_timestep_of_last t hf hl] at he; cases he
      · simp only [Bool.not_eq_true] at hl
        by_cases hm : t.is_mid = true
        · rw [convert_timestep_of_mid t hf hl hm] at he; cases he
        · simp only [Bool.not_eq_true] at hm
          exact ⟨hf, hl, hm⟩
  · exact ⟨"Invalid Step type", by
      simp [convert_timestep, classify_step_type, hf, hl, hm, Except.map]⟩
  · intro hf
    rw [convert_timestep_of_first t hf]; rfl
  · intro hf hl
    rw [convert_timestep_of_last t hf hl]; rfl
  · intro hf hl hm
    rw [convert_timestep_of_mid t hf hl hm]; rfl

/-- Witness for the amended C4 at concrete inputs: an all-false
timestep errors, a last-phase timestep maps to `LAST`, a mid-phase
timestep maps to `MID`, a first-phase timestep maps to `FIRST`. -/
theorem C4_amended_witness :
    (∃ e, convert_timestep
        (⟨false, false, false, NDArray.scalar 2, NDArray.scalar 2, (0 : Nat)⟩ :
          SrcTimeStep Nat) = .error e) ∧
    (convert_timestep
        (⟨false, true, false, NDArray.scalar 2, NDArray.scalar 2, (0 : Nat)⟩ :
          SrcTimeStep Nat)).map (fun r => r.step_type) = .ok .LAST ∧
    (convert_timestep
        (⟨false, false, true, NDArray.scalar 2, NDArray.scalar 2, (0 : Nat)⟩ :
          SrcTimeStep Nat)).map (fun r => r.step_type) = .ok .MID ∧
    (convert_timestep
        (⟨true, false, false, NDArray.scalar 2, NDArray.scalar 2, (0 : Nat)⟩ :
          SrcTimeStep Nat)).map (fun r => r.step_type) = .ok .FIRST :=
  ⟨(C4_amended_error_iff_unclassified _).1.mpr ⟨rfl, rfl, rfl⟩,
    (C4_amended_error_iff_unclassified _).2.2.1 rfl rfl,
    (C4_amended_error_iff_unclassified _).2.2.2 rfl rfl rfl,
    (C4_amended_error_iff_unclassified _).2.1 rfl⟩

/-- C10: the phase predicates are tested in the fixed order first,
last, mid and the first true predicate wins; a timestep on which both
the first- and last-step predicates hold converts with step type
`FIRST`, reward `0.0` and discount `1.0`; the invalid-input error is
raised exactly when all three predicates are false. -/
theorem C10_priority_order {α : Type} (t : SrcTimeStep α) :
    (t.is_first = true →
      convert_timestep t =
        .ok ⟨.FIRST, NDArray.scalar 0, NDArray.scalar 1, t.observation⟩) ∧
    (t.is_first = false → t.is_last = true →
      convert_timestep t =
        .ok ⟨.LAST, t.reward.squeeze, t.discount.squeeze, t.observation⟩) ∧
    (t.is_first = false → t.is_last = false → t.is_mid = true →
      convert_timestep t =
        .ok ⟨.MID, t.reward.squeeze, t.discount.squeeze, t.observation⟩) ∧
    (t.is_first = false → t.is_last = false → t.is_mid = false →
      convert_timestep t = .error "Invalid Step type") :=
  ⟨fun hf => convert_timestep_of_first t hf,
    fun hf hl => convert_timestep_of_last t hf hl,
    fun hf hl hm => convert_timestep_of_mid t hf hl hm,
    fun hf hl hm => by
      simp [convert_timestep, classify_step_type, hf, hl, hm, Except.map]⟩

/-- Witness for C10 at concrete inputs, in particular at a timestep on
which both the first- and last-step predicates hold. -/
theorem C10_witness :
    convert_timestep
        (⟨true, true, true, ⟨[1], [8]⟩, ⟨[1], [8]⟩, (1 : Nat)⟩ :
          SrcTimeStep Nat) =
      .ok ⟨.FIRST, NDArray.scalar 0, NDArray.scalar 1, (1 : Nat)⟩ ∧
    convert_timestep
        (⟨false, true, true, ⟨[1], [8]⟩, ⟨[1], [8]⟩, (1 : Nat)⟩ :
          SrcTimeStep Nat) =
      .ok ⟨.LAST, NDArray.squeeze ⟨[1], [8]⟩, NDArray.squeeze ⟨[1], [8]⟩,
        (1 : Nat)⟩ ∧
    convert_timestep
        (⟨false, false, false, ⟨[1], [8]⟩, ⟨[1], [8]⟩, (1 : Nat)⟩ :
          SrcTimeStep Nat) = .error "Invalid Step type" :=
  ⟨(C10_priority_order _).1 rfl,
    (C10_priority_order _).2.1 rfl rfl,
    (C10_priority_order _).2.2.2 rfl rfl rfl⟩

/-- The discrete-action pattern as worded by the spec (4.3): the leaf
spec is bounded, has scalar (empty) shape, an integer element type, and
minimum exactly 0.  Stated from the spec's words, to be compared with
the behaviour of `_convert_action_spec` as embedded from the source. -/
def discreteActionPattern : TfaSpec → Prop
  | .bounded sh dt _ mn _ => sh = [] ∧ dt.isInteger = true ∧ mn = 0
  | .array .. => False

/-- C2: `_convert_action_spec` emits a discrete descriptor iff the leaf
spec is bounded with scalar shape, integer dtype and minimum 0; in that
case the descriptor has cardinality `maximum - minimum + 1` and the
source dtype and name; every bounded spec not matching the pattern maps
to a bounded descriptor with bounds, shape, dtype and name preserved
— the generic rule of the plain spec converter. -/
theorem C2_action_spec_characterization :
    (∀ s : TfaSpec,
      (convert_action_spec s).isDiscrete = true ↔ discreteActionPattern s) ∧
    (∀ (sh : List Nat) (dt : DType) (nm : Option String) (mn mx : ℚ),
      discreteActionPattern (.bounded sh dt nm mn mx) →
        convert_action_spec (.bounded sh dt nm mn mx) =
          .discrete (mx - mn + 1) dt nm) ∧
    (∀ (sh : List Nat) (dt : DType) (nm : Option String) (mn mx : ℚ),
      ¬ discreteActionPattern (.bounded sh dt nm mn mx) →
        convert_action_spec (.bounded sh dt nm mn mx) =
          convert_spec (.bounded sh dt nm mn mx) ∧
        convert_spec (.bounded sh dt nm mn mx) = .bounded sh dt nm mn mx) := by
  refine ⟨fun s => ?_, fun sh dt nm mn mx hp => ?_, fun sh dt nm mn mx hp => ?_⟩
  · cases s with
    | array sh dt nm => simp [convert_action_spec, convert_spec,
        DmSpec.isDiscrete, discreteActionPattern]
    | bounded sh dt nm mn mx =>
        by_cases hp : sh = [] ∧ dt.isInteger = true ∧ mn = 0
        · simp [convert_action_spec, hp, DmSpec.isDiscrete, discreteActionPattern]
        · simp [convert_action_spec, hp, convert_spec, DmSpec.isDiscrete,
            discreteActionPattern]
  · simp only [discreteActionPattern] at hp
    simp [convert_action_spec, hp]
  · simp only [discreteActionPattern] at hp
    exact ⟨by simp [convert_action_spec, hp], rfl⟩

/-- Witness for C2: the spec's own example — a bounded scalar integer
spec with minimum 0 and maximum 4 converts to a discrete descriptor
with cardinality 5 — together with a non-scalar bounded spec converting
to a bounded descriptor with bounds preserved. -/
theorem C2_witness :
    convert_action_spec (.bounded [] .int32 (some "act") 0 4) =
      .discrete 5 .int32 (some "act") ∧
    convert_action_spec (.bounded [3] .int32 (some "act") 0 4) =
      .bounded [3] .int32 (some "act") 0 4 := by
  constructor
  · have h := C2_action_spec_characterization.2.1 [] .int32 (some "act") 0 4
      ⟨rfl, rfl, rfl⟩
    rw [h]
    norm_num
  · have h := C2_action_spec_characterization.2.2 [3] .int32 (some "act") 0 4
      (by simp [discreteActionPattern])
    rw [h.1, h.2]

/-- C6: `_convert_spec` maps a bounded source spec to a bounded
descriptor with the same shape, dtype, name, minimum and maximum, maps
an unbounded source spec to a plain array descriptor with the same
shape, dtype and name, and never yields a discrete descriptor. -/
theorem C6_plain_spec_characterization :
    (∀ (sh : List Nat) (dt : DType) (nm : Option String) (mn mx : ℚ),
      convert_spec (.bounded sh dt nm mn mx) = .bounded sh dt nm mn mx) ∧
    (∀ (sh : List Nat) (dt : DType) (nm : Option String),
      convert_spec (.array sh dt nm) = .array sh dt nm) ∧
    (∀ s : TfaSpec, (convert_spec s).isDiscrete = false) :=
  ⟨fun _ _ _ _ _ => rfl, fun _ _ _ => rfl,
    fun s => by cases s <;> rfl⟩

/-- C5: constructing the adapter over a batched environment fails with
the not-supported error, and the outcome is the same for every batched
environment whatever its spec methods return — no converted spec enters
the result. -/
theorem C5_batched_rejected (env : PyEnv) (h : env.batched = true) :
    PyToDMWrapper.make env =
      .error "Batched environments cannot be converted to dm environments." ∧
    (∀ env' : PyEnv, env'.batched = true →
        PyToDMWrapper.make env = PyToDMWrapper.make env') := by
  constructor
  · simp [PyToDMWrapper.make, h]
  · intro env' h'
    simp [PyToDMWrapper.make, h, h']

/-- A concrete batched source environment. -/
def sampleBatchedEnv : PyEnv where
  batched := true
  state := 0
  obs_spec_at := fun _ => .leaf (.array [2] .float32 none)
  act_spec_at := fun _ => .leaf (.bounded [] .int32 none 0 4)
  disc_spec_at := fun _ => .leaf (.bounded [] .float32 none 0 1)
  step_at := fun s _ =>
    (s + 1, ⟨false, false, true, NDArray.scalar 0, NDArray.scalar 1,
      NDArray.scalar 0⟩)
  reset_at := fun s =>
    (s + 1, ⟨true, false, false, NDArray.scalar 0, NDArray.scalar 1,
      NDArray.scalar 0⟩)

/-- Witness for C5 at the concrete batched environment. -/
theorem C5_witness :
    PyToDMWrapper.make sampleBatchedEnv =
      .error "Batched environments cannot be converted to dm environments." :=
  (C5_batched_rejected sampleBatchedEnv rfl).1

/-- Stepping the adapter, any number of times, leaves all three spec
caches untouched. -/
theorem stepMany_caches (w : PyToDMWrapper) (as : List Nat) :
    (w.stepMany as).observation_spec_cache = w.observation_spec_cache ∧
    (w.stepMany as).action_spec_cache = w.action_spec_cache ∧
    (w.stepMany as).discount_spec_cache = w.discount_spec_cache := by
  induction as generalizing w with
  | nil => exact ⟨rfl, rfl, rfl⟩
  | cons a rest ih => exact ih (w.step a).1

/-- C8: constructing the adapter over an unbatched environment
succeeds; the three returned specs are exactly the conversions of the
wrapped environment's specs as sampled at construction time; and the
values returned by `observation_spec` / `action_spec` / `discount_spec`
are unchanged by any sequence of `step` calls and by `reset` — the
wrapped environment's spec methods are never consulted again. -/
theorem C8_specs_cached (env : PyEnv) (h : env.batched = false) :
    ∃ w, PyToDMWrapper.make env = .ok w ∧
      w.observation_spec = Tree.map convert_spec (env.obs_spec_at env.state) ∧
      w.action_spec = Tree.map convert_action_spec (env.act_spec_at env.state) ∧
      w.discount_spec = Tree.map convert_spec (env.disc_spec_at env.state) ∧
      (∀ as : List Nat,
        (w.stepMany as).observation_spec = w.observation_spec ∧
        (w.stepMany as).action_spec = w.action_spec ∧
        (w.stepMany as).discount_spec = w.discount_spec) ∧
      ((w.reset).1.observation_spec = w.observation_spec ∧
        (w.reset).1.action_spec = w.action_spec ∧
        (w.reset).1.discount_spec = w.discount_spec) := by
  refine ⟨{ environment := env
            observation_spec_cache :=
              Tree.map convert_spec (env.obs_spec_at env.state)
            action_spec_cache :=
              Tree.map convert_action_spec (env.act_spec_at env.state)
            discount_spec_cache :=
              Tree.map convert_spec (env.disc_spec_at env.state) },
    by simp [PyToDMWrapper.make, h], rfl, rfl, rfl,
    fun as => stepMany_caches _ as, ⟨rfl, rfl, rfl⟩⟩

/-- A concrete unbatched source environment whose spec methods depend
on its internal state (so that recomputing a spec after a step would
give a different answer than the cached one). -/
def sampleUnbatchedEnv : PyEnv where
  batched := false
  state := 0
  obs_spec_at := fun s => .leaf (.array [s] .float32 none)
  act_spec_at := fun s => .leaf (.bounded [] .int32 none 0 (s + 4))
  disc_spec_at := fun s => .leaf (.bounded [s] .float32 none 0 1)
  step_at := fun s _ =>
    (s + 1, ⟨false, false, true, NDArray.scalar 0, NDArray.scalar 1,
      NDArray.scalar 0⟩)
  reset_at := fun s =>
    (s + 1, ⟨true, false, false, NDArray.scalar 0, NDArray.scalar 1,
      NDArray.scalar 0⟩)

/-- Witness for C8 at the concrete unbatched environment. -/
theorem C8_witness :
    ∃ w, PyToDMWrapper.make sampleUnbatchedEnv = .ok w ∧
      w.observation_spec =
        Tree.map convert_spec
          (sampleUnbatchedEnv.obs_spec_at sampleUnbatchedEnv.state) ∧
      w.action_spec =
        Tree.map convert_action_spec
          (sampleUnbatchedEnv.act_spec_at sampleUnbatchedEnv.state) ∧
      w.discount_spec =
        Tree.map convert_spec
          (sampleUnbatchedEnv.disc_spec_at sampleUnbatchedEnv.state) ∧
      (∀ as : List Nat,
        (w.stepMany as).observation_spec = w.observation_spec ∧
        (w.stepMany as).action_spec = w.action_spec ∧
        (w.stepMany as).discount_spec = w.discount_spec) ∧
      ((w.reset).1.observation_spec = w.observation_spec ∧
        (w.reset).1.action_spec = w.action_spec ∧
        (w.reset).1.discount_spec = w.discount_spec) :=
  C8_specs_cached sampleUnbatchedEnv rfl

mutual

/-- Mapping a leaf transform over a tree preserves its container
skeleton. -/
theorem tree_shape_map {α β : Type} (f : α → β) :
    (t : Tree α) → (Tree.map f t).shape = t.shape
  | .leaf _ => rfl
  | .dict es => congrArg Tree.dict (entries_shape_map f es)
  | .seq ts => congrArg Tree.seq (seq_shape_map f ts)

/-- `tree_shape_map` on mapping entries. -/
theorem entries_shape_map {α β : Type} (f : α → β) :
    (es : Entries α) → (Entries.map f es).shape = es.shape
  | .nil => rfl
  | .cons k t rest => by
      simp only [Entries.map, Entries.shape]
      rw [tree_shape_map f t, entries_shape_map f rest]

/-- `tree_shape_map` on sequence elements. -/
theorem seq_shape_map {α β : Type} (f : α → β) :
    (ts : TreeSeq α) → (TreeSeq.map f ts).shape = ts.shape
  | .nil => rfl
  | .cons t rest => by
      simp only [TreeSeq.map, TreeSeq.shape]
      rw [tree_shape_map f t, seq_shape_map f rest]

end

mutual

/-- Mapping a leaf transform over a tree transforms exactly the leaves,
in order. -/
theorem tree_leaves_map {α β : Type} (f : α → β) :
    (t : Tree α) → (Tree.map f t).leaves = t.leaves.map f
  | .leaf _ => rfl
  | .dict es => entries_leaves_map f es
  | .seq ts => seq_leaves_map f ts

/-- `tree_leaves_map` on mapping entries. -/
theorem entries_leaves_map {α β : Type} (f : α → β) :
    (es : Entries α) → (Entries.map f es).leaves = es.leaves.map f
  | .nil => rfl
  | .cons k t rest => by
      simp only [Entries.map, Entries.leaves, List.map_append]
      rw [tree_leaves_map f t, entries_leaves_map f rest]

/-- `tree_leaves_map` on sequence elements. -/
theorem seq_leaves_map {α β : Type} (f : α → β) :
    (ts : TreeSeq α) → (TreeSeq.map f ts).leaves = ts.leaves.map f
  | .nil => rfl
  | .cons t rest => by
      simp only [TreeSeq.map, TreeSeq.leaves, List.map_append]
      rw [tree_leaves_map f t, seq_leaves_map f rest]

end

/-- C9: converting an arbitrarily nested spec tree (with either the
plain or the action leaf converter) preserves the container skeleton —
container kinds, keys and ordering — and transforms exactly the leaves;
in particular a two-leaf mapping converts to a structurally identical
two-leaf mapping with the same keys. -/
theorem C9_tree_structure_preserved (t : Tree TfaSpec) :
    (Tree.map convert_spec t).shape = t.shape ∧
    (Tree.map convert_spec t).leaves = t.leaves.map convert_spec ∧
    (Tree.map convert_action_spec t).shape = t.shape ∧
    (Tree.map convert_action_spec t).leaves = t.leaves.map convert_action_spec :=
  ⟨tree_shape_map convert_spec t, tree_leaves_map convert_spec t,
    tree_shape_map convert_action_spec t, tree_leaves_map convert_action_spec t⟩

end PyToDm
